import Mathlib

/-!
Verification of the `SchemaMapper` subsystem
(`backend/src/schema_mapper.py`): an in-memory registry of document
schemas, global schemas and confidence-scored mappings, with a value
transformation evaluator (unit conversion, string normalization) and a
projection of document values onto global properties.

Embedding conventions:
* Python values are the inductive `Value`; Python `float` is modelled as
  an exact rational, `int` as `Int`, and `bool` as its own constructor
  (but counted as numeric by `Value.asNum`, mirroring
  `isinstance(value, (int, float))`, since `bool` is a subtype of `int`).
* Python dictionaries are association lists with unique keys, in
  insertion order; `PyDict.set` reproduces `d[k] = v` (replace in place,
  else append), `PyDict.get` reproduces `d.get(k)`.
* Python sets of strings are `Finset String`.
* Code that can raise (`rules['k'].get(...)` on a non-dict, arithmetic
  on non-numeric rule parameters) returns `Except String`.
* `datetime` values are opaque strings; `isoformat` is the identity.
* `uuid.uuid4().hex[:8]` and `datetime.now()` are nondeterministic
  inputs, passed to `create_global_schema` as explicit arguments.
-/

/-- A Python runtime value, as used for raw document properties and
transformation-rule dictionaries. -/
inductive Value where
  | vNone : Value
  | vBool : Bool → Value
  | vInt : Int → Value
  | vFloat : ℚ → Value
  | vStr : String → Value
  | vList : List Value → Value
  | vDict : List (String × Value) → Value

/-- A Python number: `int` or `float` (exact rational model). -/
inductive PyNum where
  | pint : Int → PyNum
  | pfloat : ℚ → PyNum
deriving DecidableEq, Repr

/-- Numeric value as a rational. -/
def PyNum.toRat : PyNum → ℚ
  | .pint n => (n : ℚ)
  | .pfloat q => q

/-- Back to a `Value`. -/
def PyNum.toValue : PyNum → Value
  | .pint n => Value.vInt n
  | .pfloat q => Value.vFloat q

/-- Python numeric multiplication: `int * int` is `int`, anything
involving a `float` is a `float`. -/
def PyNum.mul : PyNum → PyNum → PyNum
  | .pint a, .pint b => .pint (a * b)
  | a, b => .pfloat (a.toRat * b.toRat)

/-- Python numeric addition, with the same promotion rule. -/
def PyNum.add : PyNum → PyNum → PyNum
  | .pint a, .pint b => .pint (a + b)
  | a, b => .pfloat (a.toRat + b.toRat)

/-- Python `isinstance(value, (int, float))`, together with the numeric
interpretation: Python `bool` is an `int` subtype (`True == 1`,
`False == 0`), so it passes the check. -/
def Value.asNum : Value → Option PyNum
  | .vBool b => some (.pint (if b then 1 else 0))
  | .vInt n => some (.pint n)
  | .vFloat q => some (.pfloat q)
  | _ => none

/-- Python truthiness of a value (used by `if d.get('flag'):`). -/
def Value.pyTruthy : Value → Bool
  | .vNone => false
  | .vBool b => b
  | .vInt n => n ≠ 0
  | .vFloat q => q ≠ 0
  | .vStr s => s ≠ ""
  | .vList xs => ¬ xs.isEmpty
  | .vDict d => ¬ d.isEmpty

/-- Python `value is None`. -/
def Value.isNone : Value → Bool
  | .vNone => true
  | _ => false

/-- Truthiness of a `d.get(k)` result (`None` when the key is absent). -/
def Option.pyTruthy : Option Value → Bool
  | none => false
  | some v => v.pyTruthy

/-- Python `d.get(k)`: first binding of `k`, if any. Python dict keys are
unique, so first-match lookup is exact. -/
def PyDict.get {α : Type} (d : List (String × α)) (k : String) : Option α :=
  match d with
  | [] => none
  | (k', v) :: rest => if k' = k then some v else PyDict.get rest k

/-- Python `k in d`. -/
def PyDict.containsKey {α : Type} (d : List (String × α)) (k : String) : Bool :=
  (PyDict.get d k).isSome

/-- Python `d[k]` under a `k in d` guard; `vNone` as an unreachable default. -/
def PyDict.getV (d : List (String × Value)) (k : String) : Value :=
  (PyDict.get d k).getD Value.vNone

/-- Python `d[k] = v`: replace the binding in place if the key exists,
otherwise append at the end (Python 3.7+ insertion-order semantics). -/
def PyDict.set {α : Type} (k : String) (v : α) : List (String × α) → List (String × α)
  | [] => [(k, v)]
  | (k', v') :: rest => if k' = k then (k, v) :: rest else (k', v') :: PyDict.set k v rest

/-- In-place update of the value stored under an existing key
(`d[k].field.mutate()`); no-op when the key is absent. -/
def PyDict.modify {α : Type} (k : String) (f : α → α) : List (String × α) → List (String × α)
  | [] => []
  | (k', v) :: rest => if k' = k then (k', f v) :: rest else (k', v) :: PyDict.modify k f rest

/-- Python `v.get(k, dflt)` where `v` must be a dictionary; raises
(`AttributeError`) otherwise. -/
def Value.dictGetD (v : Value) (k : String) (dflt : Value) : Except String Value :=
  match v with
  | .vDict d => Except.ok ((PyDict.get d k).getD dflt)
  | _ => Except.error "AttributeError"

/-- Source `SchemaMapping`: one local property mapped to one or more global
properties, with confidence and optional transformation rules. -/
structure SchemaMapping where
  local_property : String
  global_properties : List String
  confidence : ℚ
  transformation_rules : List (String × Value) := []
  notes : String := ""

/-- Source `DocumentSchema`: a schema extracted from a single document. -/
structure DocumentSchema where
  schema_id : String
  jurisdiction : String
  document_title : String
  document_source : String
  extraction_date : String
  properties : List (String × Value)
  metadata : List (String × Value) := []

/-- Source `GlobalSchema`: a refined global schema consolidating local ones. -/
structure GlobalSchema where
  schema_id : String
  name : String
  version : String
  properties : List (String × Value)
  parent_schema_id : Option String := none
  source_schemas : Finset String := ∅
  created_date : String
  metadata : List (String × Value) := []

/-- The provenance record written by
`get_document_values_mapped_to_global` for one global property. -/
structure ProvenanceRecord where
  value : Value
  original_value : Value
  original_property : String
  confidence : ℚ
  source_document : String
  jurisdiction : String

/-- The `SchemaMapper` registry state: three insertion-ordered
dictionaries. -/
structure SchemaMapper where
  document_schemas : List (String × DocumentSchema)
  global_schemas : List (String × GlobalSchema)
  mappings : List (String × List SchemaMapping)

/-- Source `SchemaMapper.__init__`. -/
def SchemaMapper.empty : SchemaMapper :=
  { document_schemas := [], global_schemas := [], mappings := [] }

/-- Source `register_document_schema`: store the schema under its id,
reset/initialize its mapping list, return the id. -/
def SchemaMapper.register_document_schema (m : SchemaMapper) (schema : DocumentSchema) :
    SchemaMapper × String :=
  ({ m with
      document_schemas := PyDict.set schema.schema_id schema m.document_schemas,
      mappings := PyDict.set schema.schema_id [] m.mappings },
   schema.schema_id)

/-- Source `create_global_schema`: `fresh` stands for `uuid.uuid4().hex[:8]`
and `now` for `datetime.now()`, both supplied by the environment. -/
def SchemaMapper.create_global_schema (m : SchemaMapper) (fresh now : String)
    (name : String) (properties : List (String × Value)) (parent_id : Option String) :
    SchemaMapper × String :=
  let schema_id := "global_" ++ fresh
  let global_schema : GlobalSchema :=
    { schema_id := schema_id
      name := name
      version := "1.0.0"
      properties := properties
      parent_schema_id := parent_id
      source_schemas := ∅
      created_date := now
      metadata := [] }
  ({ m with global_schemas := PyDict.set schema_id global_schema m.global_schemas }, schema_id)

/-- Source `_find_global_schema_by_property`: linear scan over the global
schemas in insertion order; first schema whose `properties` contain the
name wins. -/
def find_global_schema_by_property (global_schemas : List (String × GlobalSchema))
    (property_name : String) : Option String :=
  match global_schemas with
  | [] => none
  | (schema_id, schema) :: rest =>
    if PyDict.containsKey schema.properties property_name then some schema_id
    else find_global_schema_by_property rest property_name

/-- One step of the source-tracking loop in `add_mapping`: add the
document id to the `source_schemas` of the first global schema declaring
`global_prop`, if any. -/
def trackSource (global_schemas : List (String × GlobalSchema))
    (doc_schema_id global_prop : String) : List (String × GlobalSchema) :=
  match find_global_schema_by_property global_schemas global_prop with
  | some gsid =>
      PyDict.modify gsid
        (fun s => { s with source_schemas := insert doc_schema_id s.source_schemas })
        global_schemas
  | none => global_schemas

/-- Source `add_mapping`: append the mapping to the document's ordered list
(creating the list if absent), then update source tracking for each
target global property. -/
def SchemaMapper.add_mapping (m : SchemaMapper) (doc_schema_id : String)
    (mapping : SchemaMapping) : SchemaMapper :=
  let newList := ((PyDict.get m.mappings doc_schema_id).getD []) ++ [mapping]
  { m with
      mappings := PyDict.set doc_schema_id newList m.mappings,
      global_schemas :=
        mapping.global_properties.foldl
          (fun gs gp => trackSource gs doc_schema_id gp) m.global_schemas }

/-- The `unit_conversion` branch of `_apply_transformations`:
`some r` models the early `return value * factor + offset`; `none`
models falling through (non-numeric value). `conversion.get` on a
non-dict raises, as does arithmetic on non-numeric factor/offset. -/
def applyUnitConversion (value conversion : Value) : Except String (Option Value) :=
  match value.asNum with
  | none => Except.ok none
  | some v =>
    match conversion.dictGetD "factor" (Value.vFloat 1),
          conversion.dictGetD "offset" (Value.vFloat 0) with
    | Except.ok fv, Except.ok ov =>
      match fv.asNum, ov.asNum with
      | some f, some o => Except.ok (some ((v.mul f).add o).toValue)
      | _, _ => Except.error "TypeError"
    | Except.error e, _ => Except.error e
    | _, Except.error e => Except.error e

/-- Python `str.lower()`, at the ASCII level (character-by-character
lowercasing). -/
def pyLower (s : String) : String :=
  String.mk (s.data.map Char.toLower)

/-- Python `str.strip()`: drop leading and trailing whitespace. -/
def pyStrip (s : String) : String :=
  String.mk (((s.data.dropWhile Char.isWhitespace).reverse.dropWhile Char.isWhitespace).reverse)

/-- The `string_normalization` branch of `_apply_transformations`:
lowercase (if the `lowercase` flag is truthy) then strip (if the
`strip` flag is truthy); non-strings pass through untouched. -/
def applyStringNorm (value norm : Value) : Except String Value :=
  match value with
  | Value.vStr s =>
    match norm.dictGetD "lowercase" Value.vNone with
    | Except.error e => Except.error e
    | Except.ok lcv =>
      let s1 := if lcv.pyTruthy then pyLower s else s
      match norm.dictGetD "strip" Value.vNone with
      | Except.error e => Except.error e
      | Except.ok stv => Except.ok (Value.vStr (if stv.pyTruthy then pyStrip s1 else s1))
  | _ => Except.ok value

/-- Source `_apply_transformations`: identity on empty rules; early return
from a successful unit conversion; otherwise string normalization or
pass-through. -/
def apply_transformations (value : Value) (rules : List (String × Value)) :
    Except String Value :=
  if rules.isEmpty then Except.ok value
  else
    let afterUnit : Except String (Option Value) :=
      if PyDict.containsKey rules "unit_conversion" then
        applyUnitConversion value (PyDict.getV rules "unit_conversion")
      else Except.ok none
    match afterUnit with
    | Except.error e => Except.error e
    | Except.ok (some result) => Except.ok result
    | Except.ok none =>
      if PyDict.containsKey rules "string_normalization" then
        applyStringNorm value (PyDict.getV rules "string_normalization")
      else Except.ok value

/-- The provenance record written for one mapping: transformed value,
raw pre-transform value, originating local property, the mapping's
confidence, and the document's title and jurisdiction. -/
def provenanceOf (doc : DocumentSchema) (mapping : SchemaMapping)
    (transformed_value : Value) : ProvenanceRecord :=
  { value := transformed_value
    original_value := PyDict.getV doc.properties mapping.local_property
    original_property := mapping.local_property
    confidence := mapping.confidence
    source_document := doc.document_title
    jurisdiction := doc.jurisdiction }

/-- The body of the projection loop for one mapping:
`doc.properties.get(local_property)` is `None` for an absent key or a
stored `None`; such mappings contribute nothing. Otherwise the
transformed value and provenance record are written under every target
global property (dict assignment, last write wins). -/
def projectMapping (doc : DocumentSchema) (result : List (String × ProvenanceRecord))
    (mapping : SchemaMapping) : Except String (List (String × ProvenanceRecord)) :=
  let local_value := PyDict.getV doc.properties mapping.local_property
  if local_value.isNone then Except.ok result
  else
    match apply_transformations local_value mapping.transformation_rules with
    | Except.error e => Except.error e
    | Except.ok transformed_value =>
      Except.ok (mapping.global_properties.foldl
        (fun r gp => PyDict.set gp (provenanceOf doc mapping transformed_value) r)
        result)

/-- The projection loop over the document's ordered mapping list. -/
def projectMappings (doc : DocumentSchema) (result : List (String × ProvenanceRecord)) :
    List SchemaMapping → Except String (List (String × ProvenanceRecord))
  | [] => Except.ok result
  | mapping :: rest =>
    match projectMapping doc result mapping with
    | Except.error e => Except.error e
    | Except.ok r => projectMappings doc r rest

/-- Source `get_document_values_mapped_to_global`: empty dict for an unknown
document id; otherwise fold the document's mappings in insertion
order. -/
def SchemaMapper.get_document_values_mapped_to_global (m : SchemaMapper)
    (doc_schema_id : String) : Except String (List (String × ProvenanceRecord)) :=
  match PyDict.get m.document_schemas doc_schema_id with
  | none => Except.ok []
  | some doc_schema =>
    projectMappings doc_schema [] ((PyDict.get m.mappings doc_schema_id).getD [])

/-- One entry of the hierarchy's `global_schemas` section. -/
structure GlobalSchemaView where
  name : String
  version : String
  parent : Option String
  properties : List String
  source_count : Nat
  created : String

/-- One entry of the hierarchy's `document_schemas` section. -/
structure DocumentSchemaView where
  jurisdiction : String
  document_title : String
  properties : List String
  extraction_date : String

/-- One entry of the hierarchy's `mappings` section. -/
structure MappingView where
  local_property : String
  global_properties : List String
  confidence : ℚ

/-- The dictionary returned by `get_schema_hierarchy`. -/
structure Hierarchy where
  global_schemas : List (String × GlobalSchemaView)
  document_schemas : List (String × DocumentSchemaView)
  mappings : List (String × List MappingView)

/-- Source `get_schema_hierarchy`: a read-only snapshot of the registry. -/
def SchemaMapper.get_schema_hierarchy (m : SchemaMapper) : Hierarchy :=
  { global_schemas :=
      m.global_schemas.map (fun p =>
        (p.1,
         { name := p.2.name
           version := p.2.version
           parent := p.2.parent_schema_id
           properties := p.2.properties.map Prod.fst
           source_count := p.2.source_schemas.card
           created := p.2.created_date })),
    document_schemas :=
      m.document_schemas.map (fun p =>
        (p.1,
         { jurisdiction := p.2.jurisdiction
           document_title := p.2.document_title
           properties := p.2.properties.map Prod.fst
           extraction_date := p.2.extraction_date })),
    mappings :=
      m.mappings.map (fun p =>
        (p.1, p.2.map (fun mp =>
          { local_property := mp.local_property
            global_properties := mp.global_properties
            confidence := mp.confidence }))) }

/-- A state-changing registry call (the two read operations are pure
functions of the state in this embedding and change nothing). -/
inductive RegistryOp where
  | register : DocumentSchema → RegistryOp
  | createGlobal : String → String → String → List (String × Value) → Option String → RegistryOp
  | addMapping : String → SchemaMapping → RegistryOp

/-- Apply one registry operation to the state. -/
def RegistryOp.step (m : SchemaMapper) : RegistryOp → SchemaMapper
  | .register schema => (m.register_document_schema schema).1
  | .createGlobal fresh now name properties parent_id =>
      (m.create_global_schema fresh now name properties parent_id).1
  | .addMapping doc_schema_id mapping => m.add_mapping doc_schema_id mapping

/-! ### Concrete fixtures (used by the testable-property instances) -/

/-- The spec's example document `d1`: jurisdiction "CityX", raw
property `sep_v` = "91.44 cm". -/
def exampleDoc : DocumentSchema :=
  { schema_id := "d1"
    jurisdiction := "CityX"
    document_title := "Separation Standards"
    document_source := "manual"
    extraction_date := "2024-01-01T00:00:00"
    properties := [("sep_v", Value.vStr "91.44 cm")]
    metadata := [] }

/-- The spec's example mapping: `sep_v` → [`vertical_clearance`],
confidence 0.9, a `unit_conversion` rule with integer factor 1 (a no-op
on the string value). -/
def exampleMapping : SchemaMapping :=
  { local_property := "sep_v"
    global_properties := ["vertical_clearance"]
    confidence := 0.9
    transformation_rules := [("unit_conversion", Value.vDict [("factor", Value.vInt 1)])]
    notes := "" }

/-- Registry holding the spec's example document and mapping. -/
def exampleRegistry : SchemaMapper :=
  ((SchemaMapper.empty.register_document_schema exampleDoc).1).add_mapping "d1" exampleMapping

/-- The provenance record the spec expects for the example. -/
def exampleRecord : ProvenanceRecord :=
  { value := Value.vStr "91.44 cm"
    original_value := Value.vStr "91.44 cm"
    original_property := "sep_v"
    confidence := 0.9
    source_document := "Separation Standards"
    jurisdiction := "CityX" }

/-- A document with two present properties, for the last-write-wins
instance. -/
def c5Doc : DocumentSchema :=
  { schema_id := "d2"
    jurisdiction := "CityY"
    document_title := "Doc Two"
    document_source := "manual"
    extraction_date := "2024-01-02T00:00:00"
    properties := [("a", Value.vInt 1), ("b", Value.vInt 2)]
    metadata := [] }

/-- First mapping of the pair targeting the shared global property. -/
def c5Mp1 : SchemaMapping :=
  { local_property := "a", global_properties := ["g"], confidence := 0.5 }

/-- Second (later) mapping targeting the same global property. -/
def c5Mp2 : SchemaMapping :=
  { local_property := "b", global_properties := ["g"], confidence := 0.8 }

/-- Trailing mapping targeting a different global property, showing
later writes to other properties do not disturb the earlier one. -/
def c5Mp3 : SchemaMapping :=
  { local_property := "a", global_properties := ["h"], confidence := 0.7 }

/-- Registry whose document has two mappings targeting the same global
property followed by one targeting another. -/
def c5Registry : SchemaMapper :=
  ((((SchemaMapper.empty.register_document_schema c5Doc).1).add_mapping
    "d2" c5Mp1).add_mapping "d2" c5Mp2).add_mapping "d2" c5Mp3

/-- Registry with one document schema and one global schema, for the
hierarchy and source-tracking instances. -/
def c7Registry : SchemaMapper :=
  (exampleRegistry.create_global_schema "beef0001" "2024-01-03T00:00:00"
    "Utility Separation" [("vertical_clearance", Value.vNone)] none).1

/-- The global schema created inside `c7Registry` (fresh suffix
"beef0001"), spelled out for use as a lookup result. -/
def c8Global : GlobalSchema :=
  { schema_id := "global_beef0001"
    name := "Utility Separation"
    version := "1.0.0"
    properties := [("vertical_clearance", Value.vNone)]
    parent_schema_id := none
    source_schemas := ∅
    created_date := "2024-01-03T00:00:00"
    metadata := [] }

/-! ### Dictionary lemmas -/

theorem PyDict.get_set_self {α : Type} (k : String) (v : α) (d : List (String × α)) :
    PyDict.get (PyDict.set k v d) k = some v := by
  induction d with
  | nil => simp [PyDict.set, PyDict.get]
  | cons hd tl ih =>
    obtain ⟨a, b⟩ := hd
    by_cases h : a = k
    · simp [PyDict.set, PyDict.get, h]
    · simp [PyDict.set, PyDict.get, h, ih]

theorem PyDict.get_set_ne {α : Type} (k k' : String) (v : α) (d : List (String × α))
    (h : k' ≠ k) : PyDict.get (PyDict.set k v d) k' = PyDict.get d k' := by
  have h' : ¬ k = k' := fun hh => h hh.symm
  induction d with
  | nil => simp [PyDict.set, PyDict.get, h']
  | cons hd tl ih =>
    obtain ⟨a, b⟩ := hd
    by_cases hk : a = k
    · subst hk
      simp [PyDict.set, PyDict.get, h']
    · by_cases hk' : a = k'
      · subst hk'
        simp [PyDict.set, PyDict.get, h]
      · simp [PyDict.set, PyDict.get, hk, hk', ih]

theorem PyDict.mem_set {α : Type} {k k' : String} {v v' : α} {d : List (String × α)}
    (h : (k', v') ∈ PyDict.set k v d) : (k', v') ∈ d ∨ (k' = k ∧ v' = v) := by
  induction d with
  | nil =>
    simp [PyDict.set] at h
    exact Or.inr h
  | cons hd tl ih =>
    obtain ⟨a, b⟩ := hd
    by_cases hk : a = k
    · simp only [PyDict.set, if_pos hk] at h
      rcases List.mem_cons.mp h with h1 | h1
      · rw [Prod.mk.injEq] at h1
        exact Or.inr h1
      · exact Or.inl (List.mem_cons_of_mem _ h1)
    · simp only [PyDict.set, if_neg hk] at h
      rcases List.mem_cons.mp h with h1 | h1
      · exact Or.inl (h1 ▸ List.mem_cons_self _ _)
      · rcases ih h1 with h2 | h2
        · exact Or.inl (List.mem_cons_of_mem _ h2)
        · exact Or.inr h2

theorem PyDict.keys_set {α : Type} (k : String) (v : α) (d : List (String × α)) :
    (PyDict.set k v d).map Prod.fst =
      if k ∈ d.map Prod.fst then d.map Prod.fst else d.map Prod.fst ++ [k] := by
  induction d with
  | nil => simp [PyDict.set]
  | cons hd tl ih =>
    obtain ⟨a, b⟩ := hd
    by_cases hk : a = k
    · simp [PyDict.set, hk]
    · have hka : ¬ k = a := fun hh => hk hh.symm
      simp only [PyDict.set, if_neg hk, List.map_cons, ih]
      by_cases hmem : k ∈ tl.map Prod.fst <;> simp [List.mem_cons, hka, hmem]

theorem PyDict.keys_set_nodup {α : Type} {k : String} {v : α} {d : List (String × α)}
    (h : (d.map Prod.fst).Nodup) : ((PyDict.set k v d).map Prod.fst).Nodup := by
  rw [PyDict.keys_set]
  by_cases hmem : k ∈ d.map Prod.fst
  · simpa [hmem] using h
  · simp [hmem, List.nodup_append, h, List.disjoint_singleton]

theorem PyDict.get_of_mem_nodup {α : Type} {k : String} {v : α} {d : List (String × α)}
    (hnd : (d.map Prod.fst).Nodup) (hmem : (k, v) ∈ d) : PyDict.get d k = some v := by
  induction d with
  | nil => cases hmem
  | cons hd tl ih =>
    obtain ⟨a, b⟩ := hd
    simp only [List.map_cons, List.nodup_cons] at hnd
    rcases List.mem_cons.mp hmem with h1 | h1
    · rw [Prod.mk.injEq] at h1
      obtain ⟨rfl, rfl⟩ := h1
      simp [PyDict.get]
    · have hk : ¬ a = k := by
        intro hk
        subst hk
        exact hnd.1 (List.mem_map.mpr ⟨(a, v), h1, rfl⟩)
      simp only [PyDict.get, if_neg hk]
      exact ih hnd.2 h1

theorem PyDict.get_map {α β : Type} (d : List (String × α)) (f : String → α → β)
    (k : String) :
    PyDict.get (d.map (fun p => (p.1, f p.1 p.2))) k = Option.map (f k) (PyDict.get d k) := by
  induction d with
  | nil => simp [PyDict.get]
  | cons hd tl ih =>
    obtain ⟨a, b⟩ := hd
    by_cases hk : a = k
    · subst hk
      simp [PyDict.get]
    · simp [PyDict.get, hk, ih]

theorem PyDict.mem_keys_of_get_eq_some {α : Type} {d : List (String × α)} {k : String}
    {v : α} (h : PyDict.get d k = some v) : k ∈ d.map Prod.fst := by
  induction d with
  | nil => simp [PyDict.get] at h
  | cons hd tl ih =>
    obtain ⟨a, b⟩ := hd
    by_cases hk : a = k
    · simp [hk]
    · simp only [PyDict.get, if_neg hk] at h
      exact List.mem_cons_of_mem _ (ih h)

theorem PyDict.get_modify {α : Type} (k g : String) (f : α → α) (d : List (String × α)) :
    PyDict.get (PyDict.modify k f d) g =
      if g = k then Option.map f (PyDict.get d g) else PyDict.get d g := by
  induction d with
  | nil => simp [PyDict.modify, PyDict.get]
  | cons hd tl ih =>
    obtain ⟨a, b⟩ := hd
    by_cases hk : a = k
    · subst hk
      by_cases hg : a = g
      · subst hg
        simp [PyDict.modify, PyDict.get]
      · have hga : ¬ g = a := fun hh => hg hh.symm
        simp [PyDict.modify, PyDict.get, hg, hga]
    · by_cases hg : a = g
      · subst hg
        have hak : ¬ a = k := hk
        simp [PyDict.modify, PyDict.get, hak]
      · simp [PyDict.modify, PyDict.get, hk, hg, ih]

theorem PyDict.keys_modify {α : Type} (k : String) (f : α → α) (d : List (String × α)) :
    (PyDict.modify k f d).map Prod.fst = d.map Prod.fst := by
  induction d with
  | nil => rfl
  | cons hd tl ih =>
    obtain ⟨a, b⟩ := hd
    by_cases hk : a = k <;> simp [PyDict.modify, hk, ih]

theorem PyDict.get_foldl_set {α : Type} (gps : List String) (v : α)
    (acc : List (String × α)) (k : String) :
    PyDict.get (gps.foldl (fun r g => PyDict.set g v r) acc) k =
      if k ∈ gps then some v else PyDict.get acc k := by
  induction gps generalizing acc with
  | nil => simp
  | cons g rest ih =>
    by_cases hk : k ∈ rest
    · simp [List.foldl_cons, ih, hk]
    · by_cases hkg : k = g
      · subst hkg
        simp [List.foldl_cons, ih, hk, PyDict.get_set_self]
      · simp [List.foldl_cons, ih, hk, hkg, PyDict.get_set_ne _ _ _ _ hkg]

theorem PyDict.mem_foldl_set {α : Type} {gps : List String} {v : α}
    {acc : List (String × α)} {k : String} {w : α}
    (h : (k, w) ∈ gps.foldl (fun r g => PyDict.set g v r) acc) :
    (k, w) ∈ acc ∨ (k ∈ gps ∧ w = v) := by
  induction gps generalizing acc with
  | nil => exact Or.inl h
  | cons g rest ih =>
    rcases ih (by simpa using h) with h1 | h1
    · rcases PyDict.mem_set h1 with h2 | h2
      · exact Or.inl h2
      · exact Or.inr ⟨by simp [h2.1], h2.2⟩
    · exact Or.inr ⟨by simp [h1.1], h1.2⟩

theorem PyDict.keys_foldl_set_nodup {α : Type} (gps : List String) (v : α)
    {acc : List (String × α)} (h : (acc.map Prod.fst).Nodup) :
    ((gps.foldl (fun r g => PyDict.set g v r) acc).map Prod.fst).Nodup := by
  induction gps generalizing acc with
  | nil => exact h
  | cons g rest ih => exact ih (PyDict.keys_set_nodup h)

/-! ### Projection lemmas -/

theorem projectMapping_ok_cases {doc : DocumentSchema}
    {acc res : List (String × ProvenanceRecord)} {mp : SchemaMapping}
    (h : projectMapping doc acc mp = Except.ok res) :
    ((PyDict.getV doc.properties mp.local_property).isNone = true ∧ res = acc) ∨
    ((PyDict.getV doc.properties mp.local_property).isNone = false ∧
      ∃ tv, apply_transformations (PyDict.getV doc.properties mp.local_property)
              mp.transformation_rules = Except.ok tv ∧
        res = mp.global_properties.foldl
          (fun r gp => PyDict.set gp (provenanceOf doc mp tv) r) acc) := by
  unfold projectMapping at h
  by_cases hn : (PyDict.getV doc.properties mp.local_property).isNone
  · left
    simp only [hn, if_true] at h
    injection h with h
    exact ⟨hn, h.symm⟩
  · right
    simp only [hn, if_false, Bool.false_eq_true] at h
    refine ⟨by simpa using hn, ?_⟩
    cases happ : apply_transformations (PyDict.getV doc.properties mp.local_property)
        mp.transformation_rules with
    | error e => rw [happ] at h; exact absurd h (by simp)
    | ok tv =>
      rw [happ] at h
      injection h with h
      exact ⟨tv, rfl, h.symm⟩

theorem projectMappings_mem {doc : DocumentSchema} {ms : List SchemaMapping}
    {acc res : List (String × ProvenanceRecord)} {gp : String} {rec : ProvenanceRecord}
    (h : projectMappings doc acc ms = Except.ok res) (hmem : (gp, rec) ∈ res) :
    (gp, rec) ∈ acc ∨
    ∃ mp ∈ ms, gp ∈ mp.global_properties ∧
      (PyDict.getV doc.properties mp.local_property).isNone = false ∧
      rec = provenanceOf doc mp rec.value ∧
      apply_transformations (PyDict.getV doc.properties mp.local_property)
        mp.transformation_rules = Except.ok rec.value := by
  induction ms generalizing acc with
  | nil =>
    unfold projectMappings at h
    injection h with h
    exact Or.inl (h ▸ hmem)
  | cons mp rest ih =>
    unfold projectMappings at h
    cases hpm : projectMapping doc acc mp with
    | error e => rw [hpm] at h; exact absurd h (by simp)
    | ok r =>
      rw [hpm] at h
      rcases ih h with h1 | ⟨mp', hmp', hrest⟩
      · rcases projectMapping_ok_cases hpm with ⟨_, rfl⟩ | ⟨hnn, tv, happ, rfl⟩
        · exact Or.inl h1
        · rcases PyDict.mem_foldl_set h1 with h2 | ⟨hgp, rfl⟩
          · exact Or.inl h2
          · refine Or.inr ⟨mp, List.mem_cons_self _ _, hgp, hnn, rfl, ?_⟩
            exact happ
      · exact Or.inr ⟨mp', List.mem_cons_of_mem _ hmp', hrest⟩

theorem projectMappings_keys_nodup {doc : DocumentSchema} {ms : List SchemaMapping}
    {acc res : List (String × ProvenanceRecord)}
    (hacc : (acc.map Prod.fst).Nodup) (h : projectMappings doc acc ms = Except.ok res) :
    (res.map Prod.fst).Nodup := by
  induction ms generalizing acc with
  | nil =>
    unfold projectMappings at h
    injection h with h
    exact h ▸ hacc
  | cons mp rest ih =>
    unfold projectMappings at h
    cases hpm : projectMapping doc acc mp with
    | error e => rw [hpm] at h; exact absurd h (by simp)
    | ok r =>
      rw [hpm] at h
      rcases projectMapping_ok_cases hpm with ⟨_, rfl⟩ | ⟨_, tv, _, rfl⟩
      · exact ih hacc h
      · exact ih (PyDict.keys_foldl_set_nodup _ _ hacc) h

theorem projectMappings_append (doc : DocumentSchema)
    (acc : List (String × ProvenanceRecord)) (l1 l2 : List SchemaMapping) :
    projectMappings doc acc (l1 ++ l2) =
      match projectMappings doc acc l1 with
      | Except.error e => Except.error e
      | Except.ok r => projectMappings doc r l2 := by
  induction l1 generalizing acc with
  | nil => rfl
  | cons mp rest ih =>
    have hl : projectMappings doc acc ((mp :: rest) ++ l2)
        = match projectMapping doc acc mp with
          | Except.error e => Except.error e
          | Except.ok r => projectMappings doc r (rest ++ l2) := rfl
    have hr : projectMappings doc acc (mp :: rest)
        = match projectMapping doc acc mp with
          | Except.error e => Except.error e
          | Except.ok r => projectMappings doc r rest := rfl
    rw [hl, hr]
    cases projectMapping doc acc mp with
    | error e => rfl
    | ok r => exact ih r

theorem projectMappings_get_preserved {doc : DocumentSchema} {ms : List SchemaMapping}
    {acc res : List (String × ProvenanceRecord)} {g : String}
    (h : projectMappings doc acc ms = Except.ok res)
    (hskip : ∀ mp ∈ ms, g ∈ mp.global_properties →
        (PyDict.getV doc.properties mp.local_property).isNone = true) :
    PyDict.get res g = PyDict.get acc g := by
  induction ms generalizing acc with
  | nil =>
    unfold projectMappings at h
    injection h with h
    rw [h]
  | cons mp rest ih =>
    unfold projectMappings at h
    cases hpm : projectMapping doc acc mp with
    | error e => rw [hpm] at h; exact absurd h (by simp)
    | ok r =>
      rw [hpm] at h
      have hrest : ∀ mp' ∈ rest, g ∈ mp'.global_properties →
          (PyDict.getV doc.properties mp'.local_property).isNone = true :=
        fun mp' hmp' => hskip mp' (List.mem_cons_of_mem _ hmp')
      rcases projectMapping_ok_cases hpm with ⟨_, rfl⟩ | ⟨hnn, tv, _, rfl⟩
      · exact ih h hrest
      · have hnotg : g ∉ mp.global_properties := by
          intro hgmem
          rw [hskip mp (List.mem_cons_self _ _) hgmem] at hnn
          cases hnn
        rw [ih h hrest, PyDict.get_foldl_set]
        simp [hnotg]

/-! ### Source-tracking lemmas -/

theorem find_modify_source (k doc : String) (gs : List (String × GlobalSchema))
    (p : String) :
    find_global_schema_by_property
        (PyDict.modify k (fun s => { s with source_schemas := insert doc s.source_schemas }) gs) p
      = find_global_schema_by_property gs p := by
  induction gs with
  | nil => rfl
  | cons hd tl ih =>
    obtain ⟨a, b⟩ := hd
    by_cases hk : a = k
    · simp [PyDict.modify, hk, find_global_schema_by_property, ih]
    · simp [PyDict.modify, hk, find_global_schema_by_property, ih]

theorem find_trackSource (gs : List (String × GlobalSchema)) (doc gp p : String) :
    find_global_schema_by_property (trackSource gs doc gp) p
      = find_global_schema_by_property gs p := by
  unfold trackSource
  cases h : find_global_schema_by_property gs gp with
  | none => rfl
  | some gsid => simp [find_modify_source]

theorem get_trackSource (gs : List (String × GlobalSchema)) (doc gp g : String) :
    PyDict.get (trackSource gs doc gp) g =
      Option.map (fun s =>
        if find_global_schema_by_property gs gp = some g
        then { s with source_schemas := insert doc s.source_schemas } else s)
        (PyDict.get gs g) := by
  unfold trackSource
  cases h : find_global_schema_by_property gs gp with
  | none =>
    simp only [Option.some.injEq]
    cases PyDict.get gs g <;> simp
  | some gsid =>
    rw [PyDict.get_modify]
    by_cases hg : g = gsid
    · subst hg
      cases PyDict.get gs g <;> simp
    · have hne : ¬ some gsid = some g := by
        simpa using fun hh => hg hh.symm
      cases PyDict.get gs g <;> simp [hg, hne]

theorem get_foldl_trackSource (gps : List String) (gs : List (String × GlobalSchema))
    (doc g : String) :
    PyDict.get (gps.foldl (fun a gp => trackSource a doc gp) gs) g =
      Option.map (fun s =>
        if gps.any (fun gp => find_global_schema_by_property gs gp == some g)
        then { s with source_schemas := insert doc s.source_schemas } else s)
        (PyDict.get gs g) := by
  induction gps generalizing gs with
  | nil => cases h : PyDict.get gs g <;> simp [h]
  | cons gp rest ih =>
    rw [List.foldl_cons, ih (trackSource gs doc gp)]
    have hfind : ∀ p, find_global_schema_by_property (trackSource gs doc gp) p
        = find_global_schema_by_property gs p := fun p => find_trackSource gs doc gp p
    simp only [hfind, get_trackSource]
    cases hget : PyDict.get gs g with
    | none => simp
    | some s =>
      by_cases h1 : find_global_schema_by_property gs gp = some g <;>
        by_cases h2 : rest.any (fun p => find_global_schema_by_property gs p == some g) <;>
          simp [h1, h2, Finset.insert_idem, beq_iff_eq]

theorem find_global_schema_first_match {gs : List (String × GlobalSchema)} {p gsid : String}
    (h : find_global_schema_by_property gs p = some gsid) :
    ∃ pre s post, gs = pre ++ (gsid, s) :: post ∧
      PyDict.containsKey s.properties p = true ∧
      ∀ q ∈ pre, PyDict.containsKey q.2.properties p = false := by
  induction gs with
  | nil => simp [find_global_schema_by_property] at h
  | cons hd tl ih =>
    obtain ⟨a, b⟩ := hd
    by_cases hc : PyDict.containsKey b.properties p
    · simp only [find_global_schema_by_property, hc, if_true, Option.some.injEq] at h
      exact ⟨[], b, tl, by simp [h], hc, by simp⟩
    · simp only [find_global_schema_by_property, hc, if_false, Bool.false_eq_true] at h
      obtain ⟨pre, s, post, hgs, hcs, hpre⟩ := ih h
      refine ⟨(a, b) :: pre, s, post, by simp [hgs], hcs, ?_⟩
      intro q hq
      rcases List.mem_cons.mp hq with rfl | hq
      · simpa using hc
      · exact hpre q hq

/-! ### Claims -/

/-- C3: applying the transformation evaluator with an empty rules
dictionary returns the value unchanged, for every value type
(identity law). -/
theorem C3_apply_empty_rules_identity (v : Value) :
    apply_transformations v [] = Except.ok v := rfl

/-- C2: with a `unit_conversion` rule, a numeric value (integer or
floating point) becomes `value * factor + offset`, with `factor`
defaulting to 1.0 and `offset` to 0.0; a non-numeric value is left
unmodified.  Concretely `apply(10, {unit_conversion: {factor: 2.54}})`
is `25.4`, with `offset: 1.0` it is `26.4`, and `apply("ABC",
{unit_conversion: {factor: 2.0}})` is `"ABC"`. -/
theorem C2_unit_conversion
    (v f o : PyNum) (rules conv : List (String × Value))
    (hkey : PyDict.containsKey rules "unit_conversion" = true)
    (hconv : PyDict.getV rules "unit_conversion" = Value.vDict conv)
    (hf : Value.asNum ((PyDict.get conv "factor").getD (Value.vFloat 1)) = some f)
    (ho : Value.asNum ((PyDict.get conv "offset").getD (Value.vFloat 0)) = some o) :
    apply_transformations v.toValue rules = Except.ok ((v.mul f).add o).toValue ∧
    (∀ (w cv : Value), w.asNum = none →
      apply_transformations w [("unit_conversion", cv)] = Except.ok w) ∧
    apply_transformations (Value.vInt 10)
        [("unit_conversion", Value.vDict [("factor", Value.vFloat 2.54)])]
      = Except.ok (Value.vFloat 25.4) ∧
    apply_transformations (Value.vInt 10)
        [("unit_conversion",
          Value.vDict [("factor", Value.vFloat 2.54), ("offset", Value.vFloat 1.0)])]
      = Except.ok (Value.vFloat 26.4) ∧
    apply_transformations (Value.vStr "ABC")
        [("unit_conversion", Value.vDict [("factor", Value.vFloat 2.0)])]
      = Except.ok (Value.vStr "ABC") := by
  refine ⟨?_, ?_, ?_, ?_, ?_⟩
  · have hne : rules.isEmpty = false := by
      cases rules with
      | nil => simp [PyDict.containsKey, PyDict.get] at hkey
      | cons a b => rfl
    have hvn : Value.asNum v.toValue = some v := by cases v <;> rfl
    simp [apply_transformations, hne, hkey, hconv, applyUnitConversion, hvn,
      Value.dictGetD, hf, ho]
  · intro w cv hw
    simp [apply_transformations, PyDict.containsKey, PyDict.get, PyDict.getV,
      applyUnitConversion, hw]
  · simp [apply_transformations, PyDict.containsKey, PyDict.get, PyDict.getV,
      applyUnitConversion, Value.asNum, Value.dictGetD, PyNum.mul, PyNum.add,
      PyNum.toRat, PyNum.toValue]
    norm_num
  · simp [apply_transformations, PyDict.containsKey, PyDict.get, PyDict.getV,
      applyUnitConversion, Value.asNum, Value.dictGetD, PyNum.mul, PyNum.add,
      PyNum.toRat, PyNum.toValue]
    norm_num
  · simp [apply_transformations, PyDict.containsKey, PyDict.get, PyDict.getV,
      applyUnitConversion, Value.asNum]

/-- C2 witness: a concrete instance with two bound mappings — factor 2
(an `int`, so the product stays an `int`) and absent offset. -/
theorem C2_unit_conversion_witness :
    PyDict.containsKey [("unit_conversion", Value.vDict [("factor", Value.vInt 2)])]
        "unit_conversion" = true ∧
    apply_transformations (PyNum.pint 10).toValue
        [("unit_conversion", Value.vDict [("factor", Value.vInt 2)])]
      = Except.ok (((PyNum.pint 10).mul (PyNum.pint 2)).add (PyNum.pfloat 0)).toValue :=
  ⟨rfl,
   (C2_unit_conversion (PyNum.pint 10) (PyNum.pint 2) (PyNum.pfloat 0)
      [("unit_conversion", Value.vDict [("factor", Value.vInt 2)])]
      [("factor", Value.vInt 2)] rfl rfl rfl rfl).1⟩

/-- C4: with a `string_normalization` rule, a string is lower-cased
when the `lowercase` flag is truthy, then stripped when the `strip`
flag is truthy, in that fixed order; non-string values are left
unmodified.  Concretely `apply("  ABC  ", {string_normalization:
{lowercase: True, strip: True}})` is `"abc"`. -/
theorem C4_string_normalization
    (s : String) (rules norm : List (String × Value))
    (hkey : PyDict.containsKey rules "string_normalization" = true)
    (hnorm : PyDict.getV rules "string_normalization" = Value.vDict norm) :
    apply_transformations (Value.vStr s) rules =
      Except.ok (Value.vStr
        (if ((PyDict.get norm "strip").getD Value.vNone).pyTruthy then
          pyStrip (if ((PyDict.get norm "lowercase").getD Value.vNone).pyTruthy
                   then pyLower s else s)
         else
          (if ((PyDict.get norm "lowercase").getD Value.vNone).pyTruthy
           then pyLower s else s))) ∧
    (∀ (w nv : Value), (∀ t, w ≠ Value.vStr t) →
      apply_transformations w [("string_normalization", nv)] = Except.ok w) ∧
    apply_transformations (Value.vStr "  ABC  ")
        [("string_normalization",
          Value.vDict [("lowercase", Value.vBool true), ("strip", Value.vBool true)])]
      = Except.ok (Value.vStr "abc") := by
  refine ⟨?_, ?_, ?_⟩
  · have hne : rules.isEmpty = false := by
      cases rules with
      | nil => simp [PyDict.containsKey, PyDict.get] at hkey
      | cons a b => rfl
    simp [apply_transformations, hne, hkey, hnorm, applyUnitConversion,
      applyStringNorm, Value.asNum, Value.dictGetD]
  · intro w nv hw
    cases w <;>
      simp_all [apply_transformations, PyDict.containsKey, PyDict.get, PyDict.getV,
        applyUnitConversion, applyStringNorm, Value.asNum]
  · simp [apply_transformations, PyDict.containsKey, PyDict.get, PyDict.getV,
      applyUnitConversion, applyStringNorm, Value.asNum, Value.dictGetD, Value.pyTruthy]
    decide

/-- C4 witness: both flags truthy on a concrete string. -/
theorem C4_string_normalization_witness :
    apply_transformations (Value.vStr "  Xy  ")
        [("string_normalization",
          Value.vDict [("lowercase", Value.vBool true), ("strip", Value.vBool true)])]
      = Except.ok (Value.vStr (pyStrip (pyLower "  Xy  "))) :=
  (C4_string_normalization "  Xy  "
    [("string_normalization",
      Value.vDict [("lowercase", Value.vBool true), ("strip", Value.vBool true)])]
    [("lowercase", Value.vBool true), ("strip", Value.vBool true)] rfl rfl).1

/-- C10: a boolean passes the numeric `isinstance` check of
`unit_conversion` (Python `bool` is an `int` subtype), so
`apply(True, {unit_conversion: {factor: 2.0}})` is `2.0`, not the
boolean unchanged. -/
theorem C10_bool_numeric_in_unit_conversion :
    apply_transformations (Value.vBool true)
        [("unit_conversion", Value.vDict [("factor", Value.vFloat 2)])]
      = Except.ok (Value.vFloat 2) ∧
    ∀ b : Bool, apply_transformations (Value.vBool b)
        [("unit_conversion", Value.vDict [("factor", Value.vFloat 2)])]
      = Except.ok (Value.vFloat (if b then 2 else 0)) := by
  constructor
  · simp [apply_transformations, PyDict.containsKey, PyDict.get, PyDict.getV,
      applyUnitConversion, Value.asNum, Value.dictGetD, PyNum.mul, PyNum.add,
      PyNum.toRat, PyNum.toValue]
  · intro b
    cases b <;>
      simp [apply_transformations, PyDict.containsKey, PyDict.get, PyDict.getV,
        applyUnitConversion, Value.asNum, Value.dictGetD, PyNum.mul, PyNum.add,
        PyNum.toRat, PyNum.toValue]

/-- C6: for a document-schema id absent from the registry — including
one for which mappings were added via `add_mapping` without
registration — the projection returns an empty mapping (and, in this
total embedding, returns rather than raising). -/
theorem C6_unknown_doc_id_empty (m : SchemaMapper) (doc_schema_id : String)
    (h : PyDict.get m.document_schemas doc_schema_id = none) :
    m.get_document_values_mapped_to_global doc_schema_id = Except.ok [] ∧
    ∀ mp : SchemaMapping,
      (m.add_mapping doc_schema_id mp).get_document_values_mapped_to_global doc_schema_id
        = Except.ok [] := by
  constructor
  · unfold SchemaMapper.get_document_values_mapped_to_global
    rw [h]
  · intro mp
    unfold SchemaMapper.get_document_values_mapped_to_global
    have hd : (m.add_mapping doc_schema_id mp).document_schemas = m.document_schemas := rfl
    rw [hd, h]

/-- C6 witness: the empty registry, with a dangling mapping added. -/
theorem C6_unknown_doc_id_empty_witness :
    SchemaMapper.empty.get_document_values_mapped_to_global "d1" = Except.ok [] ∧
    SchemaMapper.get_document_values_mapped_to_global
        (SchemaMapper.empty.add_mapping "d1"
          { local_property := "p", global_properties := ["g"], confidence := 1 })
        "d1" = Except.ok [] :=
  ⟨(C6_unknown_doc_id_empty SchemaMapper.empty "d1" rfl).1,
   (C6_unknown_doc_id_empty SchemaMapper.empty "d1" rfl).2
     { local_property := "p", global_properties := ["g"], confidence := 1 }⟩

/-- C1: every entry of a successful projection comes from a mapping of
the document whose local property is present and non-null, and its
fields are the transformed value, the raw pre-transform value, the
mapping's local property and confidence, and the document's title and
jurisdiction; mappings with an absent or null local value contribute
nothing.  The spec's `d1`/`sep_v` example evaluates to exactly the
expected single provenance record. -/
theorem C1_projection_provenance
    (m : SchemaMapper) (doc_schema_id : String) (doc : DocumentSchema)
    (res : List (String × ProvenanceRecord)) (gp : String) (rec : ProvenanceRecord)
    (hdoc : PyDict.get m.document_schemas doc_schema_id = some doc)
    (hres : m.get_document_values_mapped_to_global doc_schema_id = Except.ok res)
    (hmem : (gp, rec) ∈ res) :
    (∃ mp ∈ (PyDict.get m.mappings doc_schema_id).getD [],
      gp ∈ mp.global_properties ∧
      (PyDict.getV doc.properties mp.local_property).isNone = false ∧
      rec.original_value = PyDict.getV doc.properties mp.local_property ∧
      apply_transformations rec.original_value mp.transformation_rules
        = Except.ok rec.value ∧
      rec.original_property = mp.local_property ∧
      rec.confidence = mp.confidence ∧
      rec.source_document = doc.document_title ∧
      rec.jurisdiction = doc.jurisdiction) ∧
    exampleRegistry.get_document_values_mapped_to_global "d1"
      = Except.ok [("vertical_clearance", exampleRecord)] := by
  constructor
  · unfold SchemaMapper.get_document_values_mapped_to_global at hres
    rw [hdoc] at hres
    rcases projectMappings_mem hres hmem with h1 | ⟨mp, hmp, hgp, hnn, hrec, happ⟩
    · cases h1
    · refine ⟨mp, hmp, hgp, hnn, ?_, ?_, ?_, ?_, ?_, ?_⟩
      · rw [hrec]; rfl
      · rw [hrec]
        exact happ
      · rw [hrec]; rfl
      · rw [hrec]; rfl
      · rw [hrec]; rfl
      · rw [hrec]; rfl
  · rfl

/-- C1 witness: the spec's `d1` example discharges every hypothesis. -/
theorem C1_projection_provenance_witness :
    PyDict.get exampleRegistry.document_schemas "d1" = some exampleDoc ∧
    exampleRegistry.get_document_values_mapped_to_global "d1"
      = Except.ok [("vertical_clearance", exampleRecord)] ∧
    ("vertical_clearance", exampleRecord) ∈ [("vertical_clearance", exampleRecord)] ∧
    (∃ mp ∈ (PyDict.get exampleRegistry.mappings "d1").getD [],
      "vertical_clearance" ∈ mp.global_properties ∧
      (PyDict.getV exampleDoc.properties mp.local_property).isNone = false ∧
      exampleRecord.original_value = PyDict.getV exampleDoc.properties mp.local_property ∧
      apply_transformations exampleRecord.original_value mp.transformation_rules
        = Except.ok exampleRecord.value ∧
      exampleRecord.original_property = mp.local_property ∧
      exampleRecord.confidence = mp.confidence ∧
      exampleRecord.source_document = exampleDoc.document_title ∧
      exampleRecord.jurisdiction = exampleDoc.jurisdiction) :=
  ⟨rfl, rfl, List.mem_singleton.mpr rfl,
   (C1_projection_provenance exampleRegistry "d1" exampleDoc
      [("vertical_clearance", exampleRecord)] "vertical_clearance" exampleRecord
      rfl rfl (List.mem_singleton.mpr rfl)).1⟩

/-- C5: when a mapping `mp2` of the document targets global property
`g` with a present, non-null local value and a successful
transformation, and no later mapping in the list both targets `g` and
has a present, non-null local value — that is, `mp2` is the last
mapping written for `g` in insertion order — the projection result
holds exactly one entry for `g`, and it is `mp2`'s provenance record
(last write wins, no merge); trailing mappings to other properties or
with null/absent values do not disturb it. -/
theorem C5_last_write_wins
    (m : SchemaMapper) (doc_schema_id : String) (doc : DocumentSchema)
    (l1 l2 : List SchemaMapping) (mp2 : SchemaMapping) (g : String) (tv : Value)
    (res : List (String × ProvenanceRecord))
    (hdoc : PyDict.get m.document_schemas doc_schema_id = some doc)
    (hms : (PyDict.get m.mappings doc_schema_id).getD [] = l1 ++ mp2 :: l2)
    (hg : g ∈ mp2.global_properties)
    (hnn : (PyDict.getV doc.properties mp2.local_property).isNone = false)
    (htrans : apply_transformations (PyDict.getV doc.properties mp2.local_property)
                mp2.transformation_rules = Except.ok tv)
    (hlater : ∀ mp' ∈ l2, g ∈ mp'.global_properties →
        (PyDict.getV doc.properties mp'.local_property).isNone = true)
    (hres : m.get_document_values_mapped_to_global doc_schema_id = Except.ok res) :
    PyDict.get res g = some (provenanceOf doc mp2 tv) ∧
    (res.map Prod.fst).count g = 1 := by
  replace hres : projectMappings doc [] ((PyDict.get m.mappings doc_schema_id).getD [])
      = Except.ok res := by
    unfold SchemaMapper.get_document_values_mapped_to_global at hres
    rw [hdoc] at hres
    exact hres
  have hnd : (res.map Prod.fst).Nodup := projectMappings_keys_nodup (by simp) hres
  rw [hms, projectMappings_append] at hres
  cases hmid : projectMappings doc [] l1 with
  | error e => rw [hmid] at hres; exact absurd hres (by simp)
  | ok mid =>
    rw [hmid] at hres
    replace hres : projectMappings doc mid (mp2 :: l2) = Except.ok res := hres
    set folded := mp2.global_properties.foldl
      (fun r gp => PyDict.set gp (provenanceOf doc mp2 tv) r) mid with hfold
    have hstep : projectMappings doc mid (mp2 :: l2)
        = match projectMapping doc mid mp2 with
          | Except.error e => Except.error e
          | Except.ok r => projectMappings doc r l2 := rfl
    have hpm : projectMapping doc mid mp2 = Except.ok folded := by
      unfold projectMapping
      simp only [hnn, Bool.false_eq_true, if_false, htrans, hfold]
    rw [hstep, hpm] at hres
    have hgf : PyDict.get folded g = some (provenanceOf doc mp2 tv) := by
      rw [hfold, PyDict.get_foldl_set]
      simp [hg]
    have hgets : PyDict.get res g = some (provenanceOf doc mp2 tv) :=
      (projectMappings_get_preserved hres hlater).trans hgf
    exact ⟨hgets, List.count_eq_one_of_mem hnd (PyDict.mem_keys_of_get_eq_some hgets)⟩

/-- C5 witness: a document with mapping list `[c5Mp1 → g, c5Mp2 → g,
c5Mp3 → h]`; the second mapping's record is the one retained for `g`
even though a later mapping (to another property) follows it. -/
theorem C5_last_write_wins_witness :
    PyDict.get c5Registry.document_schemas "d2" = some c5Doc ∧
    (PyDict.get c5Registry.mappings "d2").getD [] = [c5Mp1] ++ c5Mp2 :: [c5Mp3] ∧
    "g" ∈ c5Mp2.global_properties ∧
    (PyDict.getV c5Doc.properties c5Mp2.local_property).isNone = false ∧
    apply_transformations (PyDict.getV c5Doc.properties c5Mp2.local_property)
        c5Mp2.transformation_rules = Except.ok (Value.vInt 2) ∧
    (∀ mp' ∈ [c5Mp3], "g" ∈ mp'.global_properties →
        (PyDict.getV c5Doc.properties mp'.local_property).isNone = true) ∧
    c5Registry.get_document_values_mapped_to_global "d2"
      = Except.ok [("g", provenanceOf c5Doc c5Mp2 (Value.vInt 2)),
                   ("h", provenanceOf c5Doc c5Mp3 (Value.vInt 1))] ∧
    (PyDict.get [("g", provenanceOf c5Doc c5Mp2 (Value.vInt 2)),
                 ("h", provenanceOf c5Doc c5Mp3 (Value.vInt 1))] "g"
        = some (provenanceOf c5Doc c5Mp2 (Value.vInt 2)) ∧
     (([("g", provenanceOf c5Doc c5Mp2 (Value.vInt 2)),
        ("h", provenanceOf c5Doc c5Mp3 (Value.vInt 1))]).map Prod.fst).count "g" = 1) := by
  have hlater : ∀ mp' ∈ [c5Mp3], "g" ∈ mp'.global_properties →
      (PyDict.getV c5Doc.properties mp'.local_property).isNone = true := by
    intro mp' hmp' hgmem
    rw [List.mem_singleton] at hmp'
    subst hmp'
    exact absurd hgmem (by decide)
  exact ⟨rfl, rfl, List.mem_singleton.mpr rfl, rfl, rfl, hlater, rfl,
    C5_last_write_wins c5Registry "d2" c5Doc [c5Mp1] [c5Mp3] c5Mp2 "g" (Value.vInt 2)
      [("g", provenanceOf c5Doc c5Mp2 (Value.vInt 2)),
       ("h", provenanceOf c5Doc c5Mp3 (Value.vInt 1))]
      rfl rfl (List.mem_singleton.mpr rfl) rfl rfl hlater rfl⟩

/-- C7: `get_schema_hierarchy` lists every registered document schema
and global schema exactly once (given the registry dictionaries have
unique keys, which every operation preserves), with each entry's
property-name list equal to the keys of that schema's property mapping;
it is a pure function of the state in this embedding. -/
theorem C7_hierarchy_complete
    (m : SchemaMapper)
    (hd : (m.document_schemas.map Prod.fst).Nodup)
    (hg : (m.global_schemas.map Prod.fst).Nodup) :
    (∀ p ∈ m.document_schemas,
      ((m.get_schema_hierarchy.document_schemas.map Prod.fst).count p.1 = 1 ∧
       ∃ view, PyDict.get m.get_schema_hierarchy.document_schemas p.1 = some view ∧
         view.properties = p.2.properties.map Prod.fst)) ∧
    (∀ p ∈ m.global_schemas,
      ((m.get_schema_hierarchy.global_schemas.map Prod.fst).count p.1 = 1 ∧
       ∃ view, PyDict.get m.get_schema_hierarchy.global_schemas p.1 = some view ∧
         view.properties = p.2.properties.map Prod.fst)) := by
  constructor
  · intro p hp
    have hkeys : m.get_schema_hierarchy.document_schemas.map Prod.fst
        = m.document_schemas.map Prod.fst := by
      unfold SchemaMapper.get_schema_hierarchy
      simp [List.map_map, Function.comp]
    constructor
    · rw [hkeys]
      exact List.count_eq_one_of_mem hd (List.mem_map.mpr ⟨p, hp, rfl⟩)
    · have h1 : PyDict.get m.get_schema_hierarchy.document_schemas p.1
          = Option.map (fun s : DocumentSchema =>
              ({ jurisdiction := s.jurisdiction
                 document_title := s.document_title
                 properties := s.properties.map Prod.fst
                 extraction_date := s.extraction_date } : DocumentSchemaView))
              (PyDict.get m.document_schemas p.1) :=
        PyDict.get_map m.document_schemas
          (fun _ s =>
            ({ jurisdiction := s.jurisdiction
               document_title := s.document_title
               properties := s.properties.map Prod.fst
               extraction_date := s.extraction_date } : DocumentSchemaView)) p.1
      rw [h1, PyDict.get_of_mem_nodup hd hp]
      exact ⟨_, rfl, rfl⟩
  · intro p hp
    have hkeys : m.get_schema_hierarchy.global_schemas.map Prod.fst
        = m.global_schemas.map Prod.fst := by
      unfold SchemaMapper.get_schema_hierarchy
      simp [List.map_map, Function.comp]
    constructor
    · rw [hkeys]
      exact List.count_eq_one_of_mem hg (List.mem_map.mpr ⟨p, hp, rfl⟩)
    · have h1 : PyDict.get m.get_schema_hierarchy.global_schemas p.1
          = Option.map (fun s : GlobalSchema =>
              ({ name := s.name
                 version := s.version
                 parent := s.parent_schema_id
                 properties := s.properties.map Prod.fst
                 source_count := s.source_schemas.card
                 created := s.created_date } : GlobalSchemaView))
              (PyDict.get m.global_schemas p.1) :=
        PyDict.get_map m.global_schemas
          (fun _ s =>
            ({ name := s.name
               version := s.version
               parent := s.parent_schema_id
               properties := s.properties.map Prod.fst
               source_count := s.source_schemas.card
               created := s.created_date } : GlobalSchemaView)) p.1
      rw [h1, PyDict.get_of_mem_nodup hg hp]
      exact ⟨_, rfl, rfl⟩

/-- C7 witness: a registry holding one document schema and one global
schema. -/
theorem C7_hierarchy_complete_witness :
    (c7Registry.document_schemas.map Prod.fst).Nodup ∧
    (c7Registry.global_schemas.map Prod.fst).Nodup ∧
    ((c7Registry.get_schema_hierarchy.document_schemas.map Prod.fst).count "d1" = 1 ∧
     ∃ view, PyDict.get c7Registry.get_schema_hierarchy.document_schemas "d1" = some view ∧
       view.properties = exampleDoc.properties.map Prod.fst) :=
  ⟨by decide, by decide,
   (C7_hierarchy_complete c7Registry (by decide) (by decide)).1
     ("d1", exampleDoc) (List.mem_singleton.mpr rfl)⟩

/-- C8: a global schema's `source_schemas` only grows —
`register_document_schema` leaves the global schemas untouched,
`create_global_schema` under a fresh identifier preserves every
existing entry, and `add_mapping` maps each existing entry to itself
with the document id inserted exactly when some target global property
finds that schema as its first match in scan order (`insert` on a set,
so no element is ever removed); a found match is always the first
schema in insertion order declaring the property, and properties
declared by no global schema change nothing. -/
theorem C8_source_schemas_append_only
    (m : SchemaMapper) (schema : DocumentSchema) (fresh now name : String)
    (props : List (String × Value)) (parent_id : Option String)
    (doc_schema_id : String) (mp : SchemaMapping) (g : String) (s : GlobalSchema)
    (hfresh : PyDict.containsKey m.global_schemas ("global_" ++ fresh) = false)
    (hget : PyDict.get m.global_schemas g = some s) :
    ((m.register_document_schema schema).1.global_schemas = m.global_schemas) ∧
    (PyDict.get (m.create_global_schema fresh now name props parent_id).1.global_schemas g
       = some s) ∧
    (PyDict.get (m.add_mapping doc_schema_id mp).global_schemas g =
       some { s with source_schemas := (if (mp.global_properties.any (fun gp => find_global_schema_by_property m.global_schemas gp == some g)) then insert doc_schema_id s.source_schemas else s.source_schemas) }) ∧
    (s.source_schemas ⊆
       (if (mp.global_properties.any (fun gp => find_global_schema_by_property m.global_schemas gp == some g)) then insert doc_schema_id s.source_schemas else s.source_schemas)) ∧
    (∀ p gsid, find_global_schema_by_property m.global_schemas p = some gsid →
       ∃ pre s' post, m.global_schemas = pre ++ (gsid, s') :: post ∧
         PyDict.containsKey s'.properties p = true ∧
         ∀ q ∈ pre, PyDict.containsKey q.2.properties p = false) := by
  refine ⟨rfl, ?_, ?_, ?_, ?_⟩
  · have hne : g ≠ "global_" ++ fresh := by
      intro hgf
      rw [hgf] at hget
      rw [PyDict.containsKey, hget] at hfresh
      cases hfresh
    show PyDict.get (PyDict.set ("global_" ++ fresh) _ m.global_schemas) g = some s
    rw [PyDict.get_set_ne _ _ _ _ hne, hget]
  · show PyDict.get (mp.global_properties.foldl
        (fun gs gp => trackSource gs doc_schema_id gp) m.global_schemas) g = _
    rw [get_foldl_trackSource, hget]
    by_cases hc : mp.global_properties.any
        (fun gp => find_global_schema_by_property m.global_schemas gp == some g)
    · simp only [hc, if_true, Option.map_some']
    · simp only [hc, Bool.false_eq_true, if_false, Option.map_some']
  · by_cases hc : mp.global_properties.any
        (fun gp => find_global_schema_by_property m.global_schemas gp == some g)
    · simp only [hc, if_true]
      exact Finset.subset_insert _ _
    · simp only [hc, Bool.false_eq_true, if_false]
      exact Finset.Subset.refl _
  · intro p gsid hfind
    exact find_global_schema_first_match hfind

/-- C8 witness: a registry with one global schema declaring
`vertical_clearance`; adding a mapping that targets it inserts the
document id into its `source_schemas`. -/
theorem C8_source_schemas_append_only_witness :
    PyDict.containsKey c7Registry.global_schemas ("global_" ++ "cafe0002") = false ∧
    PyDict.get c7Registry.global_schemas "global_beef0001" = some c8Global ∧
    ((c7Registry.register_document_schema c5Doc).1.global_schemas
       = c7Registry.global_schemas) ∧
    (PyDict.get (c7Registry.create_global_schema "cafe0002" "2024-01-04T00:00:00"
        "Second Global" [] none).1.global_schemas "global_beef0001" = some c8Global) ∧
    (PyDict.get (c7Registry.add_mapping "d9" exampleMapping).global_schemas "global_beef0001" =
       some { c8Global with source_schemas := (if (exampleMapping.global_properties.any (fun gp => find_global_schema_by_property c7Registry.global_schemas gp == some "global_beef0001")) then insert "d9" c8Global.source_schemas else c8Global.source_schemas) }) := by
  have h := C8_source_schemas_append_only c7Registry c5Doc "cafe0002"
    "2024-01-04T00:00:00" "Second Global" [] none "d9" exampleMapping
    "global_beef0001" c8Global rfl rfl
  exact ⟨rfl, rfl, h.1, h.2.1, h.2.2.1⟩

/-- C9 counterexample: re-registering the same document id — itself one
of the claim's listed subsequent operations (`register_document_schema`)
— resets that id's mapping list to empty, so the previously added
mapping does not remain. -/
theorem C9_reregistration_drops_mapping :
    exampleMapping ∈ (PyDict.get exampleRegistry.mappings "d1").getD [] ∧
    (PyDict.get ((exampleRegistry.register_document_schema exampleDoc).1).mappings
        "d1").getD [] = [] :=
  ⟨List.mem_singleton.mpr rfl, rfl⟩

/-- C9 (amended): a mapping added via `add_mapping` remains in its
document id's ordered mapping list under every sequence of subsequent
registry operations in which no `register_document_schema` call uses
that same schema id; re-registration of the id resets its list (there
is still no update or removal operation). -/
theorem C9_mapping_persistence
    (m : SchemaMapper) (d : String) (mp : SchemaMapping) (ops : List RegistryOp)
    (hmem : mp ∈ (PyDict.get m.mappings d).getD [])
    (hops : ∀ op ∈ ops, ∀ schema : DocumentSchema,
      op = RegistryOp.register schema → schema.schema_id ≠ d) :
    mp ∈ (PyDict.get (ops.foldl RegistryOp.step m).mappings d).getD [] := by
  induction ops generalizing m with
  | nil => exact hmem
  | cons op rest ih =>
    rw [List.foldl_cons]
    apply ih
    · cases op with
      | register schema =>
        have hne : schema.schema_id ≠ d :=
          hops _ (List.mem_cons_self _ _) schema rfl
        show mp ∈ (PyDict.get (PyDict.set schema.schema_id [] m.mappings) d).getD []
        rw [PyDict.get_set_ne _ _ _ _ (fun hh => hne hh.symm)]
        exact hmem
      | createGlobal fresh now name props parent => exact hmem
      | addMapping d' mp' =>
        show mp ∈ (PyDict.get (PyDict.set d'
            (((PyDict.get m.mappings d').getD []) ++ [mp']) m.mappings) d).getD []
        by_cases hdd : d = d'
        · subst hdd
          rw [PyDict.get_set_self]
          exact List.mem_append_left _ hmem
        · rw [PyDict.get_set_ne _ _ _ _ hdd]
          exact hmem
    · intro op' hop' schema hsch
      exact hops op' (List.mem_cons_of_mem _ hop') schema hsch

/-- C9 witness: the example mapping survives a registration of a
different document, a global-schema creation, and a further
`add_mapping` on the same id. -/
theorem C9_mapping_persistence_witness :
    exampleMapping ∈ (PyDict.get exampleRegistry.mappings "d1").getD [] ∧
    exampleMapping ∈
      (PyDict.get (([RegistryOp.register c5Doc,
          RegistryOp.createGlobal "ffff0001" "2024-01-05T00:00:00" "G3" [] none,
          RegistryOp.addMapping "d1" c5Mp1].foldl
            RegistryOp.step exampleRegistry)).mappings "d1").getD [] := by
  refine ⟨List.mem_singleton.mpr rfl, ?_⟩
  apply C9_mapping_persistence exampleRegistry "d1" exampleMapping
  · exact List.mem_singleton.mpr rfl
  · intro op hop schema hsch
    rcases List.mem_cons.mp hop with rfl | hop
    · injection hsch with h
      subst h
      decide
    · rcases List.mem_cons.mp hop with rfl | hop
      · exact RegistryOp.noConfusion hsch
      · rcases List.mem_cons.mp hop with rfl | hop
        · exact RegistryOp.noConfusion hsch
        · cases hop
